import Mathlib

/-!
Shallow embedding of `src/index.ts` of `@maxifjaved/elysia-env`: the
environment loader `env(variables, options)` that prefix-filters a raw
source mapping, runs it through the external validation capability's
staged transform (Clean → Default → Decode → Convert), checks conformance,
dispatches an error policy, and attaches the result to the framework
context under the fixed name "env".

JavaScript records (plain objects in insertion order) are embedded as
association lists `List (String × α)`; assignment `acc[k] = v` updates the
value in place when `k` is already a key and appends otherwise, and lookup
returns the (unique live) binding, i.e. the first occurrence.
-/

set_option autoImplicit false

namespace ElysiaEnv

/-- Runtime values flowing through the loader: the source is typically
string-valued, and the external capability's Convert stage coerces strings
to numbers and booleans per the declared type. -/
inductive Value where
  | vStr : String → Value
  | vNum : Int → Value
  | vBool : Bool → Value
  deriving DecidableEq, Repr

/-- A JavaScript record in insertion order. -/
abbrev RecordOf (α : Type) : Type := List (String × α)

/-- Lookup of the live binding for a key (records keep keys unique, so
the first occurrence is the live one). Embeds `obj[k]`. -/
def recGet {α : Type} : RecordOf α → String → Option α
  | [], _ => none
  | e :: t, k => if e.1 = k then some e.2 else recGet t k

/-- Assignment `obj[k] = v` on a JavaScript record: an existing key keeps
its position and gets the new value, a fresh key is appended at the end. -/
def recSet {α : Type} : RecordOf α → String → α → RecordOf α
  | [], k, v => [(k, v)]
  | e :: t, k, v => if e.1 = k then (k, v) :: t else e :: recSet t k v

/-- JavaScript `key.startsWith(p)`: exact, case-sensitive prefix test
on the characters of the key. -/
def jsStartsWith (key p : String) : Bool :=
  p.data.isPrefixOf key.data

/-- JavaScript `s.substring(n)`: the characters of `s` from index `n`
on. -/
def jsSubstringFrom (s : String) (n : Nat) : String :=
  ⟨s.data.drop n⟩

/-- One step of the prefix-filtering reduce of `src/index.ts` lines
133-142: keep an entry whose key starts with the prefix, under the key
with the prefix removed from the front (`key.substring(prefix.length)`). -/
def filterStep (p : String) (acc : RecordOf Value) (e : String × Value) : RecordOf Value :=
  if jsStartsWith e.1 p then recSet acc (jsSubstringFrom e.1 p.length) e.2 else acc

/-- `Object.entries(source).reduce(...)` of `src/index.ts` lines 133-142. -/
def prefixFilter (p : String) (source : RecordOf Value) : RecordOf Value :=
  source.foldl (filterStep p) []

/-- `src/index.ts` lines 131-143: `let processedSource = source;
if (prefix) ...` — the string `prefix` is truthy iff it is defined and
non-empty, so an absent or empty prefix leaves the source whole. -/
def processedSource (pfx : Option String) (source : RecordOf Value) : RecordOf Value :=
  match pfx with
  | none => source
  | some p => if p = "" then source else prefixFilter p source

/-- Modelled from the spec: a type descriptor of the external validation
capability (TypeBox, absent from `src/`), restricted to the string /
number / boolean descriptors the spec's examples use, each with an
optional declared default, strings with an optional `minLength`
constraint. -/
inductive Descriptor where
  | dString : Option Nat → Option String → Descriptor
  | dNumber : Option Int → Descriptor
  | dBoolean : Option Bool → Descriptor
  deriving DecidableEq, Repr

/-- The `variables` argument of `env`: a mapping from variable name to
type descriptor. -/
abbrev Schema : Type := RecordOf Descriptor

/-- The descriptor a schema declares for a name. -/
def schemaFind (s : Schema) (k : String) : Option Descriptor :=
  recGet s k

/-- Modelled from the spec: the Clean stage "removes keys not present in
`schema`". -/
def cleanStage (s : Schema) (r : RecordOf Value) : RecordOf Value :=
  r.filter (fun e => (schemaFind s e.1).isSome)

/-- The declared default of a descriptor, as a native value. -/
def declaredDefault (d : Descriptor) : Option Value :=
  match d with
  | .dString _ dv => dv.map Value.vStr
  | .dNumber dv => dv.map Value.vNum
  | .dBoolean dv => dv.map Value.vBool

/-- Modelled from the spec: the Default stage "fills missing keys using
each descriptor's declared default". -/
def defaultStage (s : Schema) (r : RecordOf Value) : RecordOf Value :=
  s.foldl
    (fun acc e =>
      match recGet acc e.1, declaredDefault e.2 with
      | none, some v => recSet acc e.1 v
      | _, _ => acc)
    r

/-- Decimal digit run to its value, `none` unless non-empty and all
digits. -/
def parseNatChars (l : List Char) : Option Nat :=
  if l = [] then none
  else if l.all Char.isDigit then
    some (l.foldl (fun acc c => acc * 10 + (c.toNat - 48)) 0)
  else none

/-- Modelled from the spec: a "numeric-looking" string as an integer
(optional leading minus sign followed by digits), else `none`. -/
def parseIntString (s : String) : Option Int :=
  match s.data with
  | '-' :: rest => (parseNatChars rest).map (fun n => -(n : Int))
  | l => (parseNatChars l).map Int.ofNat

/-- Modelled from the spec: value coercion of the Convert stage —
"numeric-looking strings to numbers, true/false-like strings to booleans,
according to each descriptor's declared type"; anything else is left
untouched for the conformance check to reject. -/
def convertValue (d : Descriptor) (v : Value) : Value :=
  match d, v with
  | .dNumber _, .vStr s =>
      match parseIntString s with
      | some n => .vNum n
      | none => .vStr s
  | .dBoolean _, .vStr s =>
      if s = "true" then .vBool true
      else if s = "false" then .vBool false
      else .vStr s
  | _, _ => v

/-- Modelled from the spec: the Convert stage applies `convertValue` at
every key the schema declares. -/
def convertStage (s : Schema) (r : RecordOf Value) : RecordOf Value :=
  r.map (fun e =>
    match schemaFind s e.1 with
    | some d => (e.1, convertValue d e.2)
    | none => e)

/-- A stage name of the external capability's staged transform. -/
inductive Stage where
  | clean | dflt | decode | convert
  deriving DecidableEq, Repr

/-- Modelled from the spec: one stage of the external transform. The
Decode stage applies codec transforms; the plain descriptors of this
model declare none, so it is the identity. -/
def applyStage (s : Schema) (r : RecordOf Value) (st : Stage) : RecordOf Value :=
  match st with
  | .clean => cleanStage s r
  | .dflt => defaultStage s r
  | .decode => r
  | .convert => convertStage s r

/-- Modelled from the spec: `Value.Parse(stages, schema, source)` runs the
named stages left to right. -/
def valueParse (stages : List Stage) (s : Schema) (r : RecordOf Value) : RecordOf Value :=
  stages.foldl (applyStage s) r

/-- The stage list the loader passes at `src/index.ts` lines 147-151:
`['Clean', 'Default', 'Decode', 'Convert']`. -/
def parseOrder : List Stage := [.clean, .dflt, .decode, .convert]

/-- Does a value satisfy a descriptor? -/
def checkValue (d : Descriptor) (v : Value) : Bool :=
  match d, v with
  | .dString ml _, .vStr s =>
      match ml with
      | some m => m ≤ s.length
      | none => true
  | .dNumber _, .vNum _ => true
  | .dBoolean _, .vBool _ => true
  | _, _ => false

/-- Modelled from the spec: the conformance checker `Value.Check` — every
declared field must be present and satisfy its descriptor. -/
def valueCheck (s : Schema) (r : RecordOf Value) : Bool :=
  s.all (fun e =>
    match recGet r e.1 with
    | some v => checkValue e.2 v
    | none => false)

/-- The human-readable message the checker reports for a failing field. -/
def errorMessage (d : Descriptor) (v : Option Value) : String :=
  match v with
  | none => "Expected required property"
  | some _ =>
    match d with
    | .dString _ _ => "Expected string"
    | .dNumber _ => "Expected number"
    | .dBoolean _ => "Expected boolean"

/-- Modelled from the spec: `Value.Errors` — for a non-conformant mapping,
the sequence of failure records, each carrying a JSON-pointer path
("/" followed by the field name) and a message. -/
def valueErrors (s : Schema) (r : RecordOf Value) : List (String × String) :=
  s.filterMap (fun e =>
    match recGet r e.1 with
    | some v =>
        if checkValue e.2 v then none
        else some ("/" ++ e.1, errorMessage e.2 (some v))
    | none => some ("/" ++ e.1, errorMessage e.2 none))

/-- `e.path.substring(1) || "root"` of `src/index.ts` line 157: the path
with its first character removed, or `"root"` when that is empty (the
empty string is the only falsy string). -/
def normalizeKey (path : String) : String :=
  if jsSubstringFrom path 1 = "" then "root" else jsSubstringFrom path 1

/-- The reduce of `src/index.ts` lines 155-162 building the Error Report
record from the checker's failure sequence. -/
def buildReport (errors : List (String × String)) : RecordOf String :=
  errors.foldl (fun acc e => recSet acc (normalizeKey e.1) e.2) []

/-- `src/index.ts` lines 167-169: each report entry on its own line. -/
def formatEntries (report : RecordOf String) : String :=
  String.intercalate "\n" (report.map (fun e => "  - " ++ e.1 ++ ": " ++ e.2))

/-- The `onError` policy: one of three tags or a custom handler
(invocations of the handler are recorded as data in the run result). -/
inductive OnError where
  | exit | warn | silent | custom
  deriving DecidableEq, Repr

/-- The options record of `env`, with the `source` default already
resolved and the callbacks tracked as data: `hasOnSuccess` records
whether an `onSuccess` callback was supplied. -/
structure EnvOptions where
  source : RecordOf Value
  pfx : Option String
  onError : OnError
  hasOnSuccess : Bool
  deriving DecidableEq, Repr

/-- A diagnostic emitted on the console, with its severity. -/
inductive Diagnostic where
  | derror : String → Diagnostic
  | dwarn : String → Diagnostic
  deriving DecidableEq, Repr

/-- The observable outcome of one call of `env`: diagnostics in emission
order, whether `process.exit` ran (with its status), the value attached
to the context by `.decorate` (with its fixed key) — `none` when the
process terminated before the attach statement was reached — and the
arguments of every `onSuccess` / custom `onError` invocation. -/
structure EnvResult where
  diagnostics : List Diagnostic
  exited : Option Nat
  attached : Option (String × RecordOf Value)
  onSuccessCalls : List (RecordOf Value)
  onErrorCalls : List (RecordOf String)
  deriving DecidableEq, Repr

/-- The effects of the validate-and-dispatch section (`src/index.ts` lines
154-185), before the final attach. -/
structure Effects where
  diagnostics : List Diagnostic
  exited : Option Nat
  onSuccessCalls : List (RecordOf Value)
  onErrorCalls : List (RecordOf String)
  deriving DecidableEq, Repr

/-- `src/index.ts` lines 154-185: on failure build the Error Report and
dispatch the policy (a custom function is called with the report; `exit`
logs an error and terminates with status 1; `warn` logs a warning;
`silent` does nothing); on success call `onSuccess` with the processed
mapping when one was supplied. -/
def dispatch (s : Schema) (opts : EnvOptions) (processed : RecordOf Value) : Effects :=
  if valueCheck s processed then
    { diagnostics := [], exited := none,
      onSuccessCalls := if opts.hasOnSuccess then [processed] else [],
      onErrorCalls := [] }
  else
    let report := buildReport (valueErrors s processed)
    match opts.onError with
    | .custom =>
        { diagnostics := [], exited := none,
          onSuccessCalls := [], onErrorCalls := [report] }
    | .exit =>
        { diagnostics :=
            [.derror ("❌ Invalid environment variables:\n" ++ formatEntries report)],
          exited := some 1, onSuccessCalls := [], onErrorCalls := [] }
    | .warn =>
        { diagnostics :=
            [.dwarn ("⚠️  Invalid environment variables:\n" ++ formatEntries report)],
          exited := none, onSuccessCalls := [], onErrorCalls := [] }
    | .silent =>
        { diagnostics := [], exited := none,
          onSuccessCalls := [], onErrorCalls := [] }

/-- The environment loader, `src/index.ts` lines 118-191: filter the
source by prefix, run the staged transform, check and dispatch, then
attach the processed mapping to the context under the fixed key "env" —
unless the exit path terminated the process first, in which case the
return statement is never reached. -/
def env (s : Schema) (opts : EnvOptions) : EnvResult :=
  let processed := valueParse parseOrder s (processedSource opts.pfx opts.source)
  let eff := dispatch s opts processed
  { diagnostics := eff.diagnostics, exited := eff.exited,
    attached := if eff.exited = none then some ("env", processed) else none,
    onSuccessCalls := eff.onSuccessCalls, onErrorCalls := eff.onErrorCalls }

/-- `createEnv` is an alias of `env` (`src/index.ts` line 194). -/
def createEnv (s : Schema) (opts : EnvOptions) : EnvResult :=
  env s opts

/-- The `processed` local of `src/index.ts` line 147: the candidate
mapping the staged transform produces for a call. -/
def processedMapping (s : Schema) (opts : EnvOptions) : RecordOf Value :=
  valueParse parseOrder s (processedSource opts.pfx opts.source)

theorem env_eq (s : Schema) (opts : EnvOptions) :
    env s opts =
      { diagnostics := (dispatch s opts (processedMapping s opts)).diagnostics,
        exited := (dispatch s opts (processedMapping s opts)).exited,
        attached :=
          if (dispatch s opts (processedMapping s opts)).exited = none then
            some ("env", processedMapping s opts)
          else none,
        onSuccessCalls := (dispatch s opts (processedMapping s opts)).onSuccessCalls,
        onErrorCalls := (dispatch s opts (processedMapping s opts)).onErrorCalls } :=
  rfl

theorem recGet_recSet {α : Type} (r : RecordOf α) (k0 : String) (v : α) (k : String) :
    recGet (recSet r k0 v) k = if k = k0 then some v else recGet r k := by
  induction r with
  | nil =>
    by_cases hk : k = k0
    · subst hk
      simp [recSet, recGet]
    · have hk' : ¬ k0 = k := fun h => hk h.symm
      simp [recSet, recGet, hk, hk']
  | cons e t ih =>
    by_cases he : e.1 = k0
    · by_cases hk : k = k0
      · subst hk
        simp [recSet, recGet, he]
      · have hk' : ¬ k0 = k := fun h => hk h.symm
        simp [recSet, recGet, he, hk, hk']
    · by_cases hk : k = k0
      · subst hk
        simp [recSet, recGet, he, Ne.symm he, ih]
      · simp [recSet, recGet, he, hk, ih]

theorem recGet_prefixFilter (p : String) (src : RecordOf Value) (k : String) :
    recGet (prefixFilter p src) k
      = (src.reverse.find?
          (fun e => jsStartsWith e.1 p && jsSubstringFrom e.1 p.length == k)).map
          (fun e => e.2) := by
  induction src using List.reverseRecOn with
  | nil => rfl
  | append_singleton t b ih =>
    have hstep : prefixFilter p (t ++ [b]) = filterStep p (prefixFilter p t) b := by
      simp [prefixFilter, List.foldl_append]
    rw [hstep, List.reverse_append, List.reverse_singleton, List.singleton_append]
    by_cases hpre : jsStartsWith b.1 p
    · by_cases hk : jsSubstringFrom b.1 p.length = k
      · simp only [filterStep, hpre, if_true, recGet_recSet]
        rw [if_pos hk.symm, List.find?_cons_of_pos _ (by simp [hpre, hk])]
        rfl
      · simp only [filterStep, hpre, if_true, recGet_recSet]
        rw [if_neg (fun h => hk h.symm), List.find?_cons_of_neg _ (by simp [hpre, hk]), ih]
    · simp only [filterStep, hpre, Bool.false_eq_true, if_false]
      rw [List.find?_cons_of_neg _ (by simp [hpre]), ih]

theorem recGet_buildReport (E : List (String × String)) (k : String) :
    recGet (buildReport E) k
      = (E.reverse.find? (fun e => normalizeKey e.1 == k)).map (fun e => e.2) := by
  induction E using List.reverseRecOn with
  | nil => rfl
  | append_singleton t b ih =>
    have hstep : buildReport (t ++ [b]) = recSet (buildReport t) (normalizeKey b.1) b.2 := by
      simp [buildReport, List.foldl_append]
    rw [hstep, recGet_recSet, List.reverse_append, List.reverse_singleton,
      List.singleton_append]
    by_cases hk : normalizeKey b.1 = k
    · rw [if_pos hk.symm, List.find?_cons_of_pos _ (by simp [hk])]
      rfl
    · rw [if_neg (fun h => hk h.symm), List.find?_cons_of_neg _ (by simp [hk]), ih]

theorem valueParse_parseOrder (s : Schema) (r : RecordOf Value) :
    valueParse parseOrder s r = convertStage s (defaultStage s (cleanStage s r)) :=
  rfl

theorem recGet_cleanStage (s : Schema) (r : RecordOf Value) (k : String)
    (hd : (schemaFind s k).isSome) :
    recGet (cleanStage s r) k = recGet r k := by
  induction r with
  | nil => rfl
  | cons e t ih =>
    by_cases hek : e.1 = k
    · have hkeep : ((schemaFind s e.1).isSome : Prop) := hek ▸ hd
      simp [cleanStage, List.filter_cons, recGet, hkeep, hek, hd]
    · by_cases hkeep : ((schemaFind s e.1).isSome : Prop)
      · simpa [cleanStage, List.filter_cons, recGet, hkeep, hek] using ih
      · simpa [cleanStage, List.filter_cons, recGet, hkeep, hek] using ih

theorem recGet_defaultStage (s : Schema) (r : RecordOf Value) (k : String) (v : Value)
    (h : recGet r k = some v) :
    recGet (defaultStage s r) k = some v := by
  induction s generalizing r with
  | nil => simpa [defaultStage] using h
  | cons e t ih =>
    rw [defaultStage, List.foldl_cons]
    apply ih
    cases hg : recGet r e.1 with
    | some w => simpa [hg] using h
    | none =>
      cases hdv : declaredDefault e.2 with
      | none => simpa [hg, hdv] using h
      | some w =>
        have hek : ¬ k = e.1 := by
          intro hh
          rw [hh, hg] at h
          cases h
        simpa [hg, hdv, recGet_recSet, hek] using h

theorem recGet_convertStage (s : Schema) (r : RecordOf Value) (k : String) (d : Descriptor)
    (v : Value) (hd : schemaFind s k = some d) (h : recGet r k = some v) :
    recGet (convertStage s r) k = some (convertValue d v) := by
  induction r with
  | nil => cases h
  | cons e t ih =>
    by_cases hek : e.1 = k
    · have hf : schemaFind s e.1 = some d := by rw [hek]; exact hd
      have hval : e.2 = v := by simpa [recGet, hek] using h
      simp [convertStage, recGet, hf, hek, hval, hd]
    · have h' : recGet t k = some v := by simpa [recGet, hek] using h
      cases hf : schemaFind s e.1 with
      | some dd => simpa [convertStage, recGet, hf, hek] using ih h'
      | none => simpa [convertStage, recGet, hf, hek] using ih h'

theorem recGet_processed (s : Schema) (opts : EnvOptions) (k : String) (d : Descriptor)
    (v : Value) (hd : schemaFind s k = some d)
    (h : recGet (processedSource opts.pfx opts.source) k = some v) :
    recGet (processedMapping s opts) k = some (convertValue d v) := by
  rw [processedMapping, valueParse_parseOrder]
  exact recGet_convertStage s _ k d v hd
    (recGet_defaultStage s _ k v
      (by rw [recGet_cleanStage s _ k (by simp [hd])]; exact h))

theorem errorMessage_ne_empty (d : Descriptor) (v : Option Value) :
    errorMessage d v ≠ "" := by
  cases v <;> cases d <;> simp only [errorMessage] <;> decide

/-- C1: when the candidate mapping (prefix filtering followed by the
transform pipeline) conforms to the schema and an `onSuccess` callback
was supplied, the loader invokes `onSuccess` exactly once with that
candidate mapping, attaches the same mapping to the context, and each
field present in the filtered source appears in the mapping coerced per
its declared type. -/
theorem env_success_invokes_onSuccess_and_attaches (s : Schema) (opts : EnvOptions)
    (hc : valueCheck s (processedMapping s opts) = true)
    (hs : opts.hasOnSuccess = true) :
    (env s opts).onSuccessCalls = [processedMapping s opts]
    ∧ (env s opts).attached = some ("env", processedMapping s opts)
    ∧ ∀ k d v, schemaFind s k = some d →
        recGet (processedSource opts.pfx opts.source) k = some v →
        recGet (processedMapping s opts) k = some (convertValue d v) := by
  refine ⟨?_, ?_, fun k d v hd hv => recGet_processed s opts k d v hd hv⟩ <;>
    rw [env_eq] <;> simp [dispatch, hc, hs]

theorem env_success_invokes_onSuccess_and_attaches_witness :
    (env [("PORT", Descriptor.dNumber none)]
        { source := [("PORT", Value.vStr "3000")], pfx := none,
          onError := OnError.exit, hasOnSuccess := true }).onSuccessCalls
      = [processedMapping [("PORT", Descriptor.dNumber none)]
          { source := [("PORT", Value.vStr "3000")], pfx := none,
            onError := OnError.exit, hasOnSuccess := true }]
    ∧ (env [("PORT", Descriptor.dNumber none)]
        { source := [("PORT", Value.vStr "3000")], pfx := none,
          onError := OnError.exit, hasOnSuccess := true }).attached
      = some ("env", processedMapping [("PORT", Descriptor.dNumber none)]
          { source := [("PORT", Value.vStr "3000")], pfx := none,
            onError := OnError.exit, hasOnSuccess := true })
    ∧ recGet (processedMapping [("PORT", Descriptor.dNumber none)]
          { source := [("PORT", Value.vStr "3000")], pfx := none,
            onError := OnError.exit, hasOnSuccess := true }) "PORT"
      = some (convertValue (Descriptor.dNumber none) (Value.vStr "3000")) := by
  obtain ⟨h1, h2, h3⟩ :=
    env_success_invokes_onSuccess_and_attaches [("PORT", Descriptor.dNumber none)]
      { source := [("PORT", Value.vStr "3000")], pfx := none,
        onError := OnError.exit, hasOnSuccess := true } (by decide) rfl
  exact ⟨h1, h2, h3 "PORT" (Descriptor.dNumber none) (Value.vStr "3000") (by decide) (by decide)⟩

/-- C2: when the conformance check fails and the policy is not `exit`
(`warn`, `silent`, or a custom function), the loader still attaches the
non-conformant candidate mapping under the fixed name "env" and returns
(no process termination); under `silent` additionally no diagnostic is
emitted. -/
theorem env_nonexit_failure_attaches (s : Schema) (opts : EnvOptions)
    (hf : valueCheck s (processedMapping s opts) = false)
    (hne : opts.onError ≠ OnError.exit) :
    (env s opts).attached = some ("env", processedMapping s opts)
    ∧ (env s opts).exited = none
    ∧ (opts.onError = OnError.silent → (env s opts).diagnostics = []) := by
  rw [env_eq]
  cases hoe : opts.onError <;> simp_all [dispatch, hf]

theorem env_nonexit_failure_attaches_witness :
    (env [("PORT", Descriptor.dNumber none)]
        { source := [], pfx := none, onError := OnError.silent,
          hasOnSuccess := false }).attached
      = some ("env", processedMapping [("PORT", Descriptor.dNumber none)]
          { source := [], pfx := none, onError := OnError.silent, hasOnSuccess := false })
    ∧ (env [("PORT", Descriptor.dNumber none)]
        { source := [], pfx := none, onError := OnError.silent,
          hasOnSuccess := false }).exited = none
    ∧ (env [("PORT", Descriptor.dNumber none)]
        { source := [], pfx := none, onError := OnError.silent,
          hasOnSuccess := false }).diagnostics = [] := by
  obtain ⟨h1, h2, h3⟩ :=
    env_nonexit_failure_attaches [("PORT", Descriptor.dNumber none)]
      { source := [], pfx := none, onError := OnError.silent, hasOnSuccess := false }
      (by decide) (by decide)
  exact ⟨h1, h2, h3 rfl⟩

/-- C3: when the conformance check fails, `onSuccess` is never invoked,
whatever the error policy (including a custom function). -/
theorem env_failure_no_onSuccess (s : Schema) (opts : EnvOptions)
    (hf : valueCheck s (processedMapping s opts) = false) :
    (env s opts).onSuccessCalls = [] := by
  rw [env_eq]
  cases hoe : opts.onError <;> simp [dispatch, hf, hoe]

theorem env_failure_no_onSuccess_witness :
    (env [("PORT", Descriptor.dNumber none)]
        { source := [], pfx := none, onError := OnError.custom,
          hasOnSuccess := true }).onSuccessCalls = [] :=
  env_failure_no_onSuccess [("PORT", Descriptor.dNumber none)]
    { source := [], pfx := none, onError := OnError.custom, hasOnSuccess := true }
    (by decide)

/-- C4: for a non-empty prefix, the filtered source holds exactly the
source entries whose key starts with the prefix, rekeyed with the prefix
removed from the front; on collision of stripped keys the last source
entry in enumeration order wins (the lookup equals the last matching
entry, i.e. the first match in the reversed source); in particular for
source APP_X=1, OTHER=2 and prefix APP_ the filtered source is exactly
X=1. -/
theorem env_prefix_filter_exact (p : String) (hp : p ≠ "") (source : RecordOf Value)
    (k : String) :
    recGet (processedSource (some p) source) k
      = (source.reverse.find?
          (fun e => jsStartsWith e.1 p && jsSubstringFrom e.1 p.length == k)).map
          (fun e => e.2)
    ∧ processedSource (some "APP_") [("APP_X", Value.vStr "1"), ("OTHER", Value.vStr "2")]
        = [("X", Value.vStr "1")] := by
  refine ⟨?_, by decide⟩
  simp only [processedSource, hp, if_false]
  exact recGet_prefixFilter p source k

theorem env_prefix_filter_exact_witness :
    recGet (processedSource (some "APP_")
        [("APP_X", Value.vStr "1"), ("OTHER", Value.vStr "2")]) "X"
      = ([("APP_X", Value.vStr "1"),
          ("OTHER", Value.vStr "2")].reverse.find?
            (fun e => jsStartsWith e.1 "APP_" && jsSubstringFrom e.1 "APP_".length == "X")).map
          (fun e => e.2)
    ∧ processedSource (some "APP_") [("APP_X", Value.vStr "1"), ("OTHER", Value.vStr "2")]
        = [("X", Value.vStr "1")] :=
  env_prefix_filter_exact "APP_" (by decide)
    [("APP_X", Value.vStr "1"), ("OTHER", Value.vStr "2")] "X"

/-- C5 counterexample: a schema declaring the fields "" and "root" with
both missing yields two validation failures (paths "/" and "/root"), yet
the Error Report handed to the custom handler has a single entry — both
failures normalize to the key "root" and the record assignment collapses
them (last one wins) — so the report does not have one entry per
validation failure. -/
theorem env_custom_report_collapse_cex :
    (valueErrors [("", Descriptor.dNumber none), ("root", Descriptor.dNumber none)]
        (processedMapping [("", Descriptor.dNumber none), ("root", Descriptor.dNumber none)]
          { source := [], pfx := none, onError := OnError.custom,
            hasOnSuccess := false })).length = 2
    ∧ (env [("", Descriptor.dNumber none), ("root", Descriptor.dNumber none)]
        { source := [], pfx := none, onError := OnError.custom,
          hasOnSuccess := false }).onErrorCalls
        = [[("root", "Expected required property")]] := by
  exact ⟨by decide, by decide⟩

/-- C5 amended: on a failing validation the custom handler is called
exactly once with the Error Report; the report maps each distinct
normalized failing field path (path minus its leading character, "root"
when that is empty) to the message of the LAST failure reported with
that normalized path — colliding paths share one entry instead of one
entry per failure — and every reported message is non-empty. -/
theorem env_custom_report_amended (s : Schema) (opts : EnvOptions)
    (hf : valueCheck s (processedMapping s opts) = false)
    (hcu : opts.onError = OnError.custom) :
    (env s opts).onErrorCalls = [buildReport (valueErrors s (processedMapping s opts))]
    ∧ (∀ k, recGet (buildReport (valueErrors s (processedMapping s opts))) k
        = ((valueErrors s (processedMapping s opts)).reverse.find?
            (fun e => normalizeKey e.1 == k)).map (fun e => e.2))
    ∧ (∀ pm ∈ valueErrors s (processedMapping s opts), pm.2 ≠ "") := by
  refine ⟨?_, fun k => recGet_buildReport _ k, ?_⟩
  · rw [env_eq]
    simp [dispatch, hf, hcu]
  · intro pm hpm
    simp only [valueErrors, List.mem_filterMap] at hpm
    obtain ⟨a, _, hfa⟩ := hpm
    cases hg : recGet (processedMapping s opts) a.1 with
    | some v =>
      rw [hg] at hfa
      by_cases hc : checkValue a.2 v
      · simp [hc] at hfa
      · simp only [hc, Bool.false_eq_true, if_false, Option.some.injEq] at hfa
        rw [← hfa]
        exact errorMessage_ne_empty a.2 (some v)
    | none =>
      rw [hg] at hfa
      simp only [Option.some.injEq] at hfa
      rw [← hfa]
      exact errorMessage_ne_empty a.2 none

theorem env_custom_report_amended_witness :
    (env [("PORT", Descriptor.dNumber none)]
        { source := [], pfx := none, onError := OnError.custom,
          hasOnSuccess := false }).onErrorCalls
      = [buildReport (valueErrors [("PORT", Descriptor.dNumber none)]
          (processedMapping [("PORT", Descriptor.dNumber none)]
            { source := [], pfx := none, onError := OnError.custom,
              hasOnSuccess := false }))]
    ∧ recGet (buildReport (valueErrors [("PORT", Descriptor.dNumber none)]
          (processedMapping [("PORT", Descriptor.dNumber none)]
            { source := [], pfx := none, onError := OnError.custom,
              hasOnSuccess := false }))) "PORT"
      = ((valueErrors [("PORT", Descriptor.dNumber none)]
          (processedMapping [("PORT", Descriptor.dNumber none)]
            { source := [], pfx := none, onError := OnError.custom,
              hasOnSuccess := false })).reverse.find?
            (fun e => normalizeKey e.1 == "PORT")).map (fun e => e.2)
    ∧ ("/PORT", "Expected required property").2 ≠ "" := by
  obtain ⟨h1, h2, h3⟩ :=
    env_custom_report_amended [("PORT", Descriptor.dNumber none)]
      { source := [], pfx := none, onError := OnError.custom, hasOnSuccess := false }
      (by decide) rfl
  exact ⟨h1, h2 "PORT", h3 ("/PORT", "Expected required property") (by decide)⟩

/-- C6: on a failing validation with policy `exit`, the loader emits one
error-level diagnostic whose message enumerates the Error Report entries
line by line, terminates with status 1, and never reaches the
attachment; moreover the exit policy on a failing check is the only code
path that terminates the process, always with status 1. -/
theorem env_exit_terminates_after_diagnostic (s : Schema) (opts : EnvOptions)
    (hf : valueCheck s (processedMapping s opts) = false)
    (he : opts.onError = OnError.exit) :
    (env s opts).diagnostics
      = [Diagnostic.derror ("❌ Invalid environment variables:\n"
          ++ formatEntries (buildReport (valueErrors s (processedMapping s opts))))]
    ∧ (env s opts).exited = some 1
    ∧ (env s opts).attached = none
    ∧ (∀ s' opts', (env s' opts').exited ≠ none →
        opts'.onError = OnError.exit
        ∧ valueCheck s' (processedMapping s' opts') = false
        ∧ (env s' opts').exited = some 1) := by
  refine ⟨?_, ?_, ?_, ?_⟩
  · rw [env_eq]
    simp [dispatch, hf, he]
  · rw [env_eq]
    simp [dispatch, hf, he]
  · rw [env_eq]
    simp [dispatch, hf, he]
  · intro s' o' hx
    by_cases hf' : valueCheck s' (processedMapping s' o')
    · exact absurd (by rw [env_eq]; simp [dispatch, hf']) hx
    · rw [Bool.not_eq_true] at hf'
      cases ho' : o'.onError with
      | exit => exact ⟨rfl, hf', by rw [env_eq]; simp [dispatch, hf', ho']⟩
      | warn => exact absurd (by rw [env_eq]; simp [dispatch, hf', ho']) hx
      | silent => exact absurd (by rw [env_eq]; simp [dispatch, hf', ho']) hx
      | custom => exact absurd (by rw [env_eq]; simp [dispatch, hf', ho']) hx

theorem env_exit_terminates_after_diagnostic_witness :
    (env [("PORT", Descriptor.dNumber none)]
        { source := [], pfx := none, onError := OnError.exit,
          hasOnSuccess := false }).diagnostics
      = [Diagnostic.derror ("❌ Invalid environment variables:\n"
          ++ formatEntries (buildReport (valueErrors [("PORT", Descriptor.dNumber none)]
              (processedMapping [("PORT", Descriptor.dNumber none)]
                { source := [], pfx := none, onError := OnError.exit,
                  hasOnSuccess := false }))))]
    ∧ (env [("PORT", Descriptor.dNumber none)]
        { source := [], pfx := none, onError := OnError.exit,
          hasOnSuccess := false }).exited = some 1
    ∧ (env [("PORT", Descriptor.dNumber none)]
        { source := [], pfx := none, onError := OnError.exit,
          hasOnSuccess := false }).attached = none := by
  obtain ⟨h1, h2, h3, _⟩ :=
    env_exit_terminates_after_diagnostic [("PORT", Descriptor.dNumber none)]
      { source := [], pfx := none, onError := OnError.exit, hasOnSuccess := false }
      (by decide) rfl
  exact ⟨h1, h2, h3⟩

/-- C7: the loader runs the external transform with the stages in the
fixed order Clean, Default, Decode, Convert; consequently a number field
with default 3000 and an omitting source yields the number 3000 (not the
string "3000"), and supplied strings are coerced per the declared type
("3000" to the number 3000, "true" to the boolean true). -/
theorem env_parse_order_and_coercion :
    parseOrder = [Stage.clean, Stage.dflt, Stage.decode, Stage.convert]
    ∧ (env [("PORT", Descriptor.dNumber (some 3000))]
        { source := [], pfx := none, onError := OnError.exit,
          hasOnSuccess := false }).attached
        = some ("env", [("PORT", Value.vNum 3000)])
    ∧ (env [("N", Descriptor.dNumber none), ("B", Descriptor.dBoolean none)]
        { source := [("N", Value.vStr "3000"), ("B", Value.vStr "true")], pfx := none,
          onError := OnError.exit, hasOnSuccess := false }).attached
        = some ("env", [("N", Value.vNum 3000), ("B", Value.vBool true)]) := by
  exact ⟨rfl, by decide, by decide⟩

/-- C8: with no prefix configured the filtered source is the raw source
itself, so the candidate mapping is the transform of the raw source; the
embedding is purely functional, the raw source record is never written
to. -/
theorem env_no_prefix_uses_raw_source (s : Schema) (opts : EnvOptions)
    (h : opts.pfx = none) :
    processedSource opts.pfx opts.source = opts.source
    ∧ processedMapping s opts = valueParse parseOrder s opts.source := by
  rw [processedMapping, h]
  exact ⟨rfl, rfl⟩

theorem env_no_prefix_uses_raw_source_witness :
    processedSource (EnvOptions.mk [("PORT", Value.vStr "1")] none OnError.exit false).pfx
        (EnvOptions.mk [("PORT", Value.vStr "1")] none OnError.exit false).source
      = (EnvOptions.mk [("PORT", Value.vStr "1")] none OnError.exit false).source
    ∧ processedMapping [("PORT", Descriptor.dNumber none)]
        (EnvOptions.mk [("PORT", Value.vStr "1")] none OnError.exit false)
      = valueParse parseOrder [("PORT", Descriptor.dNumber none)]
          (EnvOptions.mk [("PORT", Value.vStr "1")] none OnError.exit false).source :=
  env_no_prefix_uses_raw_source [("PORT", Descriptor.dNumber none)]
    (EnvOptions.mk [("PORT", Value.vStr "1")] none OnError.exit false) rfl

/-- C9: the loader is deterministic in its inputs — two calls with equal
schema and options (and hence an unchanged source) produce equal results,
in particular attachments with equal content. -/
theorem env_repeat_equal_attachments (s : Schema) (o1 o2 : EnvOptions) (h : o1 = o2) :
    (env s o1).attached = (env s o2).attached ∧ env s o1 = env s o2 := by
  rw [h]
  exact ⟨rfl, rfl⟩

theorem env_repeat_equal_attachments_witness :
    (env [("PORT", Descriptor.dNumber none)]
        { source := [("PORT", Value.vStr "1")], pfx := none, onError := OnError.exit,
          hasOnSuccess := false }).attached
      = (env [("PORT", Descriptor.dNumber none)]
          { source := [("PORT", Value.vStr "1")], pfx := none, onError := OnError.exit,
            hasOnSuccess := false }).attached
    ∧ env [("PORT", Descriptor.dNumber none)]
        { source := [("PORT", Value.vStr "1")], pfx := none, onError := OnError.exit,
          hasOnSuccess := false }
      = env [("PORT", Descriptor.dNumber none)]
          { source := [("PORT", Value.vStr "1")], pfx := none, onError := OnError.exit,
            hasOnSuccess := false } :=
  env_repeat_equal_attachments [("PORT", Descriptor.dNumber none)]
    { source := [("PORT", Value.vStr "1")], pfx := none, onError := OnError.exit,
      hasOnSuccess := false }
    { source := [("PORT", Value.vStr "1")], pfx := none, onError := OnError.exit,
      hasOnSuccess := false } rfl

/-- C10: a supplied but empty prefix string is falsy in JavaScript, so no
filtering or stripping occurs: the whole source reaches the transform and
the call behaves exactly as when the prefix is omitted. -/
theorem env_empty_prefix_no_filtering (s : Schema) (opts : EnvOptions)
    (h : opts.pfx = some "") :
    processedSource opts.pfx opts.source = opts.source
    ∧ env s opts = env s { opts with pfx := none } := by
  obtain ⟨src, px, oe, hos⟩ := opts
  simp only at h
  subst h
  exact ⟨rfl, rfl⟩

theorem env_empty_prefix_no_filtering_witness :
    processedSource (EnvOptions.mk [("PORT", Value.vStr "1")] (some "") OnError.exit false).pfx
        (EnvOptions.mk [("PORT", Value.vStr "1")] (some "") OnError.exit false).source
      = (EnvOptions.mk [("PORT", Value.vStr "1")] (some "") OnError.exit false).source
    ∧ env [("PORT", Descriptor.dNumber none)]
        (EnvOptions.mk [("PORT", Value.vStr "1")] (some "") OnError.exit false)
      = env [("PORT", Descriptor.dNumber none)]
          { EnvOptions.mk [("PORT", Value.vStr "1")] (some "") OnError.exit false with
            pfx := none } :=
  env_empty_prefix_no_filtering [("PORT", Descriptor.dNumber none)]
    (EnvOptions.mk [("PORT", Value.vStr "1")] (some "") OnError.exit false) rfl

end ElysiaEnv
